import Mathlib

/-!
Verification of the container lifecycle/session manager in
`wc_env_manager/core.py` (class `WcEnvManager`).

The Python code manipulates POSIX path strings through `os.path.abspath`,
`os.path.join`, `os.path.relpath`, `os.path.normpath` and `str.startswith`.
Those library functions are modelled here character-for-character on the
underlying character lists, following the CPython `posixpath` sources.
-/

namespace WcEnv

/-- Model of CPython `str.split(sep)` for a one-character separator, on the
character list of the string.  `split` of the empty string is `[[]]`, and a
separator character always opens a new (possibly empty) component. -/
def splitOnChar (c : Char) : List Char → List (List Char)
  | [] => [[]]
  | x :: xs =>
    if x = c then [] :: splitOnChar c xs
    else
      match splitOnChar c xs with
      | t :: ts => (x :: t) :: ts
      | [] => [[x]]

/-- Model of CPython `sep.join(comps)` for a one-character separator. -/
def joinComps (c : Char) : List (List Char) → List Char
  | [] => []
  | [t] => t
  | t :: t2 :: ts => t ++ c :: joinComps c (t2 :: ts)

/-- Componentwise `os.path.commonprefix` of two component lists (for two
sequences the CPython min/max computation yields the longest common
prefix). -/
def commonPrefixComps : List (List Char) → List (List Char) → List (List Char)
  | x :: xs, y :: ys => if x = y then x :: commonPrefixComps xs ys else []
  | _, _ => []

/-- Model of Python `s.startswith(pre)`. -/
def pyStartswith (s pre : String) : Bool :=
  pre.data.isPrefixOf s.data

/-- Model of Python `s.endswith('/')`. -/
def pyEndswithSlash (s : String) : Bool :=
  s.data.getLast? = some '/'

/-- Model of CPython `posixpath.join(a, b)`. -/
def pyJoin (a b : String) : String :=
  if pyStartswith b "/" then b
  else if a = "" ∨ pyEndswithSlash a = true then a ++ b
  else a ++ "/" ++ b

/-- The component-processing loop of CPython `posixpath.normpath`.  The
accumulator holds the new components in reverse order, so `acc.head?` is
Python's `new_comps[-1]` and removing the head models `new_comps.pop()`. -/
def normAux (slashes : Nat) : List (List Char) → List (List Char) → List (List Char)
  | acc, [] => acc.reverse
  | acc, t :: ts =>
    if t = [] ∨ t = ['.'] then normAux slashes acc ts
    else if t ≠ ['.', '.'] ∨ (slashes = 0 ∧ acc = []) ∨ acc.head? = some ['.', '.'] then
      normAux slashes (t :: acc) ts
    else
      match acc with
      | [] => normAux slashes [] ts
      | _ :: rest => normAux slashes rest ts

/-- Model of CPython `posixpath.normpath`. -/
def pyNormpath (p : String) : String :=
  if p.data = [] then "."
  else
    let slashes : Nat :=
      if pyStartswith p "//" = true ∧ pyStartswith p "///" = false then 2
      else if pyStartswith p "/" = true then 1
      else 0
    let comps := splitOnChar '/' p.data
    let newComps := normAux slashes [] comps
    let res := List.replicate slashes '/' ++ joinComps '/' newComps
    if res = [] then "." else String.mk res

/-- Model of CPython `posixpath.abspath` relative to an explicit current
working directory `cwd` (the Python function reads `os.getcwd()`). -/
def pyAbspath (cwd p : String) : String :=
  if pyStartswith p "/" then pyNormpath p else pyNormpath (pyJoin cwd p)

/-- The component step of CPython `posixpath.relpath`: given the nonempty
components `sl` of the resolved start and `pl` of the resolved path, emit
`['..'] * (len(sl) - i) + pl[i:]` joined with separators, where `i` is the
length of the common prefix, or `.` when that list is empty. -/
def relFromComps (sl pl : List (List Char)) : String :=
  match List.replicate (sl.length - (commonPrefixComps sl pl).length) ['.', '.'] ++
      pl.drop (commonPrefixComps sl pl).length with
  | [] => "."
  | r :: rs => String.mk (joinComps '/' (r :: rs))

/-- Model of CPython `posixpath.relpath(p, start)` relative to an explicit
current working directory `cwd`. -/
def pyRelpath (cwd p start : String) : String :=
  relFromComps ((splitOnChar '/' (pyAbspath cwd start).data).filter (fun t => t ≠ []))
    ((splitOnChar '/' (pyAbspath cwd p).data).filter (fun t => t ≠ []))

/-- The single exception class of the repository: `WcEnvManagerError` carries
only a message string. -/
structure WcEnvManagerError where
  message : String
deriving DecidableEq

/-- Loop body of `WcEnvManager.convert_host_to_container_path`: iterate over
the mount table `paths_to_mount_to_docker_container` (a `(host path, bind
path)` association list in insertion order), abspath each host mount path,
and return on the first entry whose host mount path `startswith`-matches the
(already resolved) host path. -/
def convertHostGo (cwd hp : String) : List (String × String) → Except WcEnvManagerError String
  | [] => Except.error ⟨hp ++ " is not mounted into the container"⟩
  | (host_mount_path, bindPath) :: rest =>
    if pyStartswith hp (pyAbspath cwd host_mount_path) = true then
      Except.ok (pyJoin bindPath (pyRelpath cwd hp (pyAbspath cwd host_mount_path)))
    else convertHostGo cwd hp rest

/-- Model of `WcEnvManager.convert_host_to_container_path`. -/
def convert_host_to_container_path (cwd : String) (mounts : List (String × String))
    (host_path : String) : Except WcEnvManagerError String :=
  convertHostGo cwd (pyAbspath cwd host_path) mounts

/-- Loop body of `WcEnvManager.convert_container_to_host_path`: the container
path is not resolved, and the bind path of each entry is used verbatim. -/
def convertContainerGo (cwd cp : String) : List (String × String) → Except WcEnvManagerError String
  | [] => Except.error ⟨cp ++ " is not mounted into the container"⟩
  | (host_mount_path, bindPath) :: rest =>
    if pyStartswith cp bindPath = true then
      Except.ok (pyJoin host_mount_path (pyRelpath cwd cp bindPath))
    else convertContainerGo cwd cp rest

/-- Model of `WcEnvManager.convert_container_to_host_path`. -/
def convert_container_to_host_path (cwd : String) (mounts : List (String × String))
    (container_path : String) : Except WcEnvManagerError String :=
  convertContainerGo cwd container_path mounts

/-! Normalised paths.  `goodName` holds of a path component that is nonempty
and neither `.` nor `..`; `cleanAbs p` says `p` is an absolute path in
normal form below the root (so `pyNormpath` fixes it), and `cleanRel s` says
`s` is a relative path in normal form. -/

def goodName (t : List Char) : Bool :=
  decide (t ≠ [] ∧ t ≠ ['.'] ∧ t ≠ ['.', '.'])

def cleanRel (s : String) : Bool :=
  (splitOnChar '/' s.data).all goodName

def cleanAbs (p : String) : Bool :=
  pyStartswith p "/" && (splitOnChar '/' (p.data.drop 1)).all goodName

/-! The `WcEnvUser` enumeration and the container-creation call. -/

/-- The `WcEnvUser` enumeration from the source: WC environment users and
their ids (`root = 0`, `container_user = 999`). -/
inductive WcEnvUser
  | root
  | container_user
deriving DecidableEq

/-- The numeric id carried by each `WcEnvUser` member (Python `member.value`). -/
def WcEnvUser.value : WcEnvUser → Nat
  | WcEnvUser.root => 0
  | WcEnvUser.container_user => 999

/-- The member name of each `WcEnvUser` member (Python `member.name`). -/
def WcEnvUser.name : WcEnvUser → String
  | WcEnvUser.root => "root"
  | WcEnvUser.container_user => "container_user"

/-- The keyword arguments passed to `docker client.containers.run` by
`create_docker_container`. -/
structure RunArgs where
  image : String
  name : String
  volumes : List (String × String)
  stdin_open : Bool
  tty : Bool
  detach : Bool
  user : String
deriving DecidableEq

/-- The session attributes of `WcEnvManager` that `create_docker_container`
reads and writes. -/
structure SessionState where
  base_docker_image_repo : String
  paths_to_mount_to_docker_container : List (String × String)
  docker_container_name_format : String
  docker_container : Option String

/-- Model of `WcEnvManager.make_docker_container_name`: `datetime.now()`
formatted with `docker_container_name_format`; the `strftime` call on the
current time is abstracted as a function from format strings to names. -/
def make_docker_container_name (strftime : String → String) (st : SessionState) : String :=
  strftime st.docker_container_name_format

/-- Model of `WcEnvManager.create_docker_container`: make a timestamped
name, call the runtime's run capability (abstracted as `containers_run`)
with the base image repo, the mount table, `stdin_open=True`, `detach=True`
and `user=WcEnvUser.root.name`, and store the new container as the current
container.  Returns the new state, the run arguments, and the container. -/
def create_docker_container (strftime : String → String) (containers_run : RunArgs → String)
    (st : SessionState) (tty : Bool) : SessionState × RunArgs × String :=
  let nm := make_docker_container_name strftime st
  let args : RunArgs :=
    { image := st.base_docker_image_repo, name := nm,
      volumes := st.paths_to_mount_to_docker_container,
      stdin_open := true, tty := tty, detach := true,
      user := WcEnvUser.root.name }
  let container := containers_run args
  ({ st with docker_container := some container }, args, container)

/-! Running processes in the container and the GitHub SSH probe. -/

/-- Python `output[0:-1]`: the process output with its final character
removed (the source trims the trailing newline this way). -/
def strDropLast (s : String) : String := String.mk s.data.dropLast

/-- Model of `WcEnvManager.run_process_in_docker_container` on the result of
one exec call: `output` and `exit_code` are what `exec_run` reported.  When
`check` is set and the exit code is nonzero the method raises
`WcEnvManagerError`; otherwise it returns the trimmed output and exit code.
The formatted command/working-directory context of the raised message is
abbreviated here; no claim concerns its text. -/
def run_process_in_docker_container (output : String) (exit_code : Int) (check : Bool) :
    Except WcEnvManagerError (String × Int) :=
  if check = true ∧ exit_code ≠ 0 then
    Except.error ⟨"Command not successfully executed in Docker container"⟩
  else
    Except.ok (strDropLast output, exit_code)

/-- Model of `re.search` with a literal pattern: substring containment. -/
def containsSubstr (s pat : String) : Bool :=
  s.data.tails.any (fun t => pat.data.isPrefixOf t)

/-- Model of `WcEnvManager.test_github_ssh_access_in_docker_container`: run
`ssh -T git@github.com` with `check=False` and report whether the exit code
is 1 and the output contains `successfully authenticated`. -/
def test_github_ssh_access_in_docker_container (output : String) (exit_code : Int) :
    Except WcEnvManagerError Bool :=
  match run_process_in_docker_container output exit_code false with
  | Except.error e => Except.error e
  | Except.ok (message, code) =>
      Except.ok (decide (code = 1) && containsSubstr message "successfully authenticated")

/-! Image removal. -/

/-- Model of `WcEnvManager.remove_docker_image`: for each tag, call the
runtime's `images.remove` on `repo:tag`; the source passes `force=True` on
every call, regardless of the method's own `force` argument.  Returns the
list of `(image name, force flag)` removal calls issued. -/
def remove_docker_image (image_repo : String) (image_tags : List String) (force : Bool) :
    List (String × Bool) :=
  image_tags.map (fun tag => (image_repo ++ ":" ++ tag, true))

/-! Container listing: filtering to managed containers and sorting by the
stats-reported read time. -/

/-- A Docker container as seen by `get_docker_containers`: its name, and the
read timestamp reported by the runtime's stats capability
(`dateutil.parser.parse(container.stats(stream=False)['read'])`), modelled
as a totally ordered natural number. -/
structure DockerContainer where
  name : String
  statsRead : Nat
deriving DecidableEq

/-- Stable insertion into a list sorted in descending key order: the new
element goes before the first element whose key is not greater, as Python's
stable `list.sort(reverse=True, key=...)` orders an earlier element before
later elements of equal key. -/
def insertDescBy (key : DockerContainer → Nat) (x : DockerContainer) :
    List DockerContainer → List DockerContainer
  | [] => [x]
  | y :: ys => if key y > key x then y :: insertDescBy key x ys else x :: y :: ys

/-- Model of Python `containers.sort(reverse=True, key=...)`: a stable sort
in descending key order. -/
def sortDescBy (key : DockerContainer → Nat) : List DockerContainer → List DockerContainer
  | [] => []
  | x :: xs => insertDescBy key x (sortDescBy key xs)

/-- Model of `WcEnvManager.get_docker_containers`: filter the runtime's full
container listing (`containers.list(all=True)`) to the containers whose
names parse against `docker_container_name_format` (the `strptime` success
test is abstracted as the predicate `is_managed`), then, when requested,
sort in descending order of the stats-reported read time. -/
def get_docker_containers (is_managed : String → Bool) (listing : List DockerContainer)
    (sort_by_read_time : Bool) : List DockerContainer :=
  let containers := listing.filter (fun c => is_managed c.name)
  if sort_by_read_time then sortDescBy (fun c => c.statsRead) containers else containers

/-- Model of `WcEnvManager.get_latest_docker_container`: the head of the
read-time-sorted managed-container listing, or none if it is empty. -/
def get_latest_docker_container (is_managed : String → Bool)
    (listing : List DockerContainer) : Option DockerContainer :=
  match get_docker_containers is_managed listing true with
  | c :: _ => some c
  | [] => none

/-! Provisioning: copying paths into the container and the setup sequence.
Container-side effects are recorded as a trace of events; the container and
host filesystems consulted by the steps are abstracted as oracles in
`SetupEnv`. -/

/-- A container-side action performed during provisioning. -/
inductive SetupEvent
  | execCmd (cmd : String)
  | existsCheck (container_path : String) (present : Bool)
  | dockerCp (local_path container_path : String)
  | pipInstall (python_version packages : String) (upgrade process_dependency_links : Bool)
deriving DecidableEq

/-- The environment consulted by the provisioning steps: the container's
home directory (`realpath` output), the host home, whether the host `~/.wc`
directory exists, the `third_party/paths.yml` items, the result of the
`[ -f p ] || [ -d p ]` existence probe per container path, the SSH probe's
raw output and exit code, the temporary file names, and the exit status of
the pip install per requirements set.  Auxiliary commands (`touch`,
`ssh-keyscan`, `mkdir`, `mktemp`, `rm`) are modelled as succeeding. -/
structure SetupEnv where
  containerHome : String
  hostHome : String
  hostConfigDirExists : Bool
  thirdPartyPaths : List (String × String)
  containerPathExists : String → Bool
  sshOutput : String
  sshExit : Int
  hostTempName : String
  mktempOut : String
  pipOk : String → Bool

/-- Model of `WcEnvManager.copy_path_to_docker_container`: probe whether the
container path exists; if it does and `overwrite` is false, raise the
already-exists `WcEnvManagerError` without copying; otherwise run
`docker cp` on the host.  Returns the performed actions and the outcome. -/
def copy_path_to_docker_container (env : SetupEnv) (local_path container_path : String)
    (overwrite : Bool) : List SetupEvent × Except WcEnvManagerError Unit :=
  let is_path := env.containerPathExists container_path
  if is_path = true ∧ overwrite = false then
    ([SetupEvent.existsCheck container_path is_path],
      Except.error ⟨"File " ++ container_path ++ " already exists"⟩)
  else
    ([SetupEvent.existsCheck container_path is_path,
      SetupEvent.dockerCp local_path container_path], Except.ok ())

/-- Sequential composition of provisioning steps: on failure the first
step's trace and error are returned and the continuation never runs. -/
def thenDo (a : List SetupEvent × Except WcEnvManagerError Unit)
    (f : Unit → List SetupEvent × Except WcEnvManagerError Unit) :
    List SetupEvent × Except WcEnvManagerError Unit :=
  match a with
  | (evs, Except.error e) => (evs, Except.error e)
  | (evs, Except.ok _) => (evs ++ (f ()).1, (f ()).2)

/-- Recognises the copy action (`docker cp` into the container). -/
def isCopyAction : SetupEvent → Bool
  | SetupEvent.dockerCp _ _ => true
  | _ => false

/-- Recognises a package-install step (`pip install -r ...`). -/
def isInstallStep : SetupEvent → Bool
  | SetupEvent.pipInstall _ _ _ _ => true
  | _ => false

/-- A provisioning environment whose existence probe reports every
container path present. -/
def envPathPresent : SetupEnv :=
  { containerHome := "/root", hostHome := "/home/u", hostConfigDirExists := false,
    thirdPartyPaths := [], containerPathExists := fun _ => true,
    sshOutput := "", sshExit := 0, hostTempName := "/tmp/reqs.txt",
    mktempOut := "/tmp/tmp123", pipOk := fun _ => true }

/-- A provisioning environment whose existence probe reports every
container path absent. -/
def envPathAbsent : SetupEnv :=
  { containerHome := "/root", hostHome := "/home/u", hostConfigDirExists := false,
    thirdPartyPaths := [], containerPathExists := fun _ => false,
    sshOutput := "", sshExit := 0, hostTempName := "/tmp/reqs.txt",
    mktempOut := "/tmp/tmp123", pipOk := fun _ => true }

/-- Model of `os.path.expanduser` for the home-relative inputs the source
uses: `~` expands to the home directory and `~/rest` to the home directory
joined with `rest`; other paths are returned unchanged. -/
def pyExpanduser (home p : String) : String :=
  if p = "~" then home
  else if pyStartswith p "~/" then home ++ "/" ++ String.mk (p.data.drop 2)
  else p

/-- Model of CPython `posixpath.dirname`: everything up to the last
separator, with trailing separators stripped unless the head is all
separators. -/
def pyDirname (p : String) : String :=
  let head := (p.data.reverse.dropWhile (fun c => c ≠ '/')).reverse
  if head = [] ∨ head.all (fun c => c = '/') then String.mk head
  else String.mk ((head.reverse.dropWhile (fun c => c = '/')).reverse)

/-- The loop of `copy_config_files_to_docker_container` over the
`third_party/paths.yml` items: expand a leading `~/` destination against
the container home, `mkdir -p` the destination directory, and copy the
source (under `third_party/`) with the step's overwrite flag. -/
def copyThirdPartyLoop (env : SetupEnv) (container_user_dirname host_config_dirname : String)
    (overwrite : Bool) :
    List (String × String) → List SetupEvent × Except WcEnvManagerError Unit
  | [] => ([], Except.ok ())
  | (rel_src, abs_dest) :: rest =>
    let abs_dest2 := if abs_dest.data.take 2 = ['~', '/'] then
      pyJoin container_user_dirname (String.mk (abs_dest.data.drop 2)) else abs_dest
    thenDo ([SetupEvent.execCmd ("mkdir -p " ++ pyDirname abs_dest2)], Except.ok ()) fun _ =>
    thenDo (copy_path_to_docker_container env
      (pyJoin (pyJoin host_config_dirname "third_party") rel_src) abs_dest2 overwrite) fun _ =>
    copyThirdPartyLoop env container_user_dirname host_config_dirname overwrite rest

/-- Model of `WcEnvManager.copy_config_files_to_docker_container`: read the
container home via `realpath`, and if the host `~/.wc` directory exists,
copy it to the container config directory and install the third-party
config files. -/
def copy_config_files_to_docker_container (env : SetupEnv) (overwrite : Bool) :
    List SetupEvent × Except WcEnvManagerError Unit :=
  thenDo ([SetupEvent.execCmd "bash -c \"realpath ~\""], Except.ok ()) fun _ =>
  if env.hostConfigDirExists = true then
    thenDo (copy_path_to_docker_container env (pyExpanduser env.hostHome (pyJoin "~" ".wc"))
      (pyJoin env.containerHome ".wc") overwrite) fun _ =>
    copyThirdPartyLoop env env.containerHome (pyExpanduser env.hostHome (pyJoin "~" ".wc"))
      overwrite env.thirdPartyPaths
  else ([], Except.ok ())

/-- The loop of `setup_docker_container` over
`paths_to_copy_to_docker_container`: copy each declared `(host, container)`
path pair with the step's overwrite flag. -/
def copyPathsLoop (env : SetupEnv) (overwrite : Bool) :
    List (String × String) → List SetupEvent × Except WcEnvManagerError Unit
  | [] => ([], Except.ok ())
  | (host, container) :: rest =>
    thenDo (copy_path_to_docker_container env host container overwrite) fun _ =>
    copyPathsLoop env overwrite rest

/-- Model of `WcEnvManager.install_github_ssh_host_in_docker_container`:
touch the known-hosts file, purge stale GitHub entries when upgrading, and
append the current GitHub host key. -/
def install_github_ssh_host_in_docker_container (upgrade : Bool) : List SetupEvent :=
  [SetupEvent.execCmd "bash -c \"touch ~/.ssh/known_hosts\""] ++
  (if upgrade = true then
    [SetupEvent.execCmd "bash -c \"sed -i /github.com ssh-rsa/d ~/.ssh/known_hosts\""]
   else []) ++
  [SetupEvent.execCmd "bash -c \"ssh-keyscan github.com >> ~/.ssh/known_hosts\""]

/-- The SSH reachability step of `setup_docker_container`: run the probe and
assert its result (a false probe raises `AssertionError`). -/
def sshProbeStep (env : SetupEnv) : List SetupEvent × Except WcEnvManagerError Unit :=
  thenDo ([SetupEvent.execCmd "ssh -T git@github.com"], Except.ok ()) fun _ =>
  match test_github_ssh_access_in_docker_container env.sshOutput env.sshExit with
  | Except.error e => ([], Except.error e)
  | Except.ok true => ([], Except.ok ())
  | Except.ok false => ([], Except.error ⟨"AssertionError"⟩)

/-- Model of `WcEnvManager.install_python_packages_in_docker_container`:
write the requirements to a host temporary file, `mktemp` a container
temporary file, copy the requirements in (with `overwrite=True`), run
`pip{version} install -r` with the upgrade and dependency-link flags, and
remove the temporary files. -/
def install_python_packages_in_docker_container (env : SetupEnv)
    (python_version packages : String) (upgrade process_dependency_links : Bool) :
    List SetupEvent × Except WcEnvManagerError Unit :=
  thenDo ([SetupEvent.execCmd "mktemp"], Except.ok ()) fun _ =>
  thenDo (copy_path_to_docker_container env env.hostTempName env.mktempOut true) fun _ =>
  thenDo ([SetupEvent.pipInstall python_version packages upgrade process_dependency_links],
    if env.pipOk packages = true then Except.ok ()
    else Except.error ⟨"Command not successfully executed in Docker container"⟩) fun _ =>
  ([SetupEvent.execCmd "rm"], Except.ok ())

/-- The configuration fields consulted by `setup_docker_container`. -/
structure WcEnvConfig where
  paths_to_copy_to_docker_container : List (String × String)
  python_version_in_container : String
  python_packages_from_pypi : String
  python_packages_from_github : String
  python_packages_from_host : String

/-- Model of `WcEnvManager.setup_docker_container`: copy the managed config
files (overwrite only on upgrade), copy the declared paths, install the
GitHub SSH host, assert SSH reachability, then unconditionally run the
three package-install steps — PyPI, GitHub (with dependency links), and
host (with dependency links) — in that order. -/
def setup_docker_container (cfg : WcEnvConfig) (env : SetupEnv) (upgrade : Bool) :
    List SetupEvent × Except WcEnvManagerError Unit :=
  thenDo (copy_config_files_to_docker_container env upgrade) fun _ =>
  thenDo (copyPathsLoop env upgrade cfg.paths_to_copy_to_docker_container) fun _ =>
  thenDo (install_github_ssh_host_in_docker_container upgrade, Except.ok ()) fun _ =>
  thenDo (sshProbeStep env) fun _ =>
  thenDo (install_python_packages_in_docker_container env cfg.python_version_in_container
    cfg.python_packages_from_pypi upgrade false) fun _ =>
  thenDo (install_python_packages_in_docker_container env cfg.python_version_in_container
    cfg.python_packages_from_github upgrade true) fun _ =>
  install_python_packages_in_docker_container env cfg.python_version_in_container
    cfg.python_packages_from_host upgrade true

/-- The end-to-end scenario configuration of the specification: one
declared PyPI package list and empty GitHub and host package lists. -/
def scenarioConfig : WcEnvConfig :=
  { paths_to_copy_to_docker_container := [],
    python_version_in_container := "3",
    python_packages_from_pypi := "requests==2.0",
    python_packages_from_github := "",
    python_packages_from_host := "" }

/-- The end-to-end scenario environment: fresh container (no path exists),
no host config directory, and an SSH probe that reports the inverted
success signal (exit code 1 with the authentication message). -/
def scenarioEnv : SetupEnv :=
  { containerHome := "/root", hostHome := "/home/u", hostConfigDirExists := false,
    thirdPartyPaths := [],
    containerPathExists := fun _ => false,
    sshOutput := "Hi user! You have successfully authenticated, but GitHub does not provide shell access.\n",
    sshExit := 1, hostTempName := "/tmp/reqs.txt", mktempOut := "/tmp/tmp123",
    pipOk := fun _ => true }

/-! Image build error handling. -/

/-- Model of Python `str(exception).replace(chr(10), chr(10) + chr(32) +
chr(32))`: each newline in a wrapped exception message is indented. -/
def indentData : List Char → List Char
  | [] => []
  | c :: cs => if c = '\n' then '\n' :: ' ' :: ' ' :: indentData cs else c :: indentData cs

/-- The indentation applied to wrapped exception text in
`build_base_docker_image`. -/
def indentException (s : String) : String := String.mk (indentData s.data)

/-- The possible outcomes of the runtime's `images.build` call as
distinguished by the except clauses of `build_base_docker_image`:
`requests.exceptions.ConnectionError`, `docker.errors.APIError`,
`docker.errors.BuildError`, or any other exception with its class name. -/
inductive DockerBuildOutcome
  | success (image : String)
  | connectionError (msg : String)
  | apiError (msg : String)
  | buildError (msg : String)
  | otherError (className msg : String)

/-- Model of the error handling of `WcEnvManager.build_base_docker_image`:
the context-directory check and the four except clauses, each of which
raises the single class `WcEnvManagerError` with a distinct message prefix.
The successful branch's tagging and log printing are not modelled; the
claims under verification concern only the error mapping. -/
def build_base_docker_image (context_is_dir : Bool) (docker_image_context_path : String)
    (outcome : DockerBuildOutcome) : Except WcEnvManagerError String :=
  if context_is_dir = false then
    Except.error ⟨"Docker image context \"" ++ docker_image_context_path ++
      "\" must be a directory"⟩
  else
    match outcome with
    | DockerBuildOutcome.success image => Except.ok image
    | DockerBuildOutcome.connectionError m =>
        Except.error ⟨"Docker connection error: service must be running:\n  " ++
          indentException m⟩
    | DockerBuildOutcome.apiError m =>
        Except.error ⟨"Docker API error: Dockerfile contains syntax errors:\n  " ++
          indentException m⟩
    | DockerBuildOutcome.buildError m =>
        Except.error ⟨"Docker build error: Error building Dockerfile:\n  " ++
          indentException m⟩
    | DockerBuildOutcome.otherError cls m =>
        Except.error ⟨cls ++ ":\n  " ++ indentException m⟩

/-- The Python class of every exception raised by the module: the source
defines the single class `WcEnvManagerError`, so the class a caller's
`except` clause or `type(e)` inspection sees is the same for every failure
kind. -/
def pythonExceptionClass : WcEnvManagerError → String := fun _ => "WcEnvManagerError"

/-- The class of the exception raised by a call, if any. -/
def raisedClass (r : Except WcEnvManagerError String) : Option String :=
  match r with
  | Except.error e => some (pythonExceptionClass e)
  | Except.ok _ => none

/-- The message of the exception raised by a call, if any. -/
def raisedMessage (r : Except WcEnvManagerError String) : Option String :=
  match r with
  | Except.error e => some e.message
  | Except.ok _ => none

def nthChar : List Char → Nat → Option Char
  | [], _ => none
  | c :: _, 0 => some c
  | _ :: cs, n + 1 => nthChar cs n

/-! Lemmas about the character-list utilities. -/

theorem splitOnChar_ne_nil (c : Char) (l : List Char) : splitOnChar c l ≠ [] := by
  induction l with
  | nil => simp [splitOnChar]
  | cons x xs ih =>
    by_cases h : x = c
    · simp [splitOnChar, h]
    · cases hs : splitOnChar c xs with
      | nil => exact absurd hs ih
      | cons t ts => simp [splitOnChar, h, hs]

theorem splitOnChar_cons_sep (c : Char) (l : List Char) :
    splitOnChar c (c :: l) = [] :: splitOnChar c l := by
  simp [splitOnChar]

theorem splitOnChar_append (c : Char) (u v : List Char) :
    splitOnChar c (u ++ c :: v) = splitOnChar c u ++ splitOnChar c v := by
  induction u with
  | nil => simp [splitOnChar]
  | cons x xs ih =>
    by_cases h : x = c
    · subst h
      rw [List.cons_append, splitOnChar_cons_sep, splitOnChar_cons_sep, ih]
      rfl
    · cases hs : splitOnChar c xs with
      | nil => exact absurd hs (splitOnChar_ne_nil c xs)
      | cons t ts =>
        have hls : splitOnChar c (x :: xs ++ c :: v) =
            (x :: t) :: (ts ++ splitOnChar c v) := by
          rw [List.cons_append]
          simp only [splitOnChar, if_neg h]
          rw [ih, hs]
          rfl
        rw [hls]
        simp only [splitOnChar, if_neg h, hs]
        rfl

theorem joinComps_splitOnChar (c : Char) (l : List Char) :
    joinComps c (splitOnChar c l) = l := by
  induction l with
  | nil => rfl
  | cons x xs ih =>
    by_cases h : x = c
    · rw [h]
      cases hs : splitOnChar c xs with
      | nil => exact absurd hs (splitOnChar_ne_nil c xs)
      | cons t ts =>
        rw [splitOnChar_cons_sep, hs]
        rw [hs] at ih
        show ([] : List Char) ++ c :: joinComps c (t :: ts) = c :: xs
        rw [ih]
        rfl
    · cases hs : splitOnChar c xs with
      | nil => exact absurd hs (splitOnChar_ne_nil c xs)
      | cons t ts =>
        have hls : splitOnChar c (x :: xs) = (x :: t) :: ts := by
          simp only [splitOnChar, if_neg h, hs]
        rw [hls]
        rw [hs] at ih
        cases ts with
        | nil =>
          show x :: t = x :: xs
          simp only [joinComps] at ih
          rw [ih]
        | cons t2 ts2 =>
          show (x :: t) ++ c :: joinComps c (t2 :: ts2) = x :: xs
          simp only [joinComps] at ih ⊢
          rw [List.cons_append]
          rw [ih]

theorem commonPrefixComps_self_append (A B : List (List Char)) :
    commonPrefixComps A (A ++ B) = A := by
  induction A with
  | nil => cases B <;> rfl
  | cons x xs ih => simp [commonPrefixComps, ih]

theorem isPrefixOf_append_self (l m : List Char) : l.isPrefixOf (l ++ m) = true := by
  induction l with
  | nil => simp [List.isPrefixOf]
  | cons x xs ih => simp [List.isPrefixOf, ih]

theorem strData_append (a b : String) : (a ++ b).data = a.data ++ b.data := by
  cases a
  cases b
  rfl

theorem strMk_data (s : String) : String.mk s.data = s := by
  cases s
  rfl

theorem data_concat_sep (a s : String) : (a ++ "/" ++ s).data = a.data ++ '/' :: s.data := by
  rw [strData_append, strData_append]
  simp

theorem pyStartswith_concat_sep (a s : String) : pyStartswith (a ++ "/" ++ s) a = true := by
  unfold pyStartswith
  rw [data_concat_sep]
  exact isPrefixOf_append_self a.data ('/' :: s.data)

theorem goodName_ne_nil (u : List Char) (h : goodName u = true) : u ≠ [] := by
  unfold goodName at h
  exact (of_decide_eq_true h).1

theorem startswith_slash_data (p : String) (h : pyStartswith p "/" = true) :
    p.data = '/' :: p.data.drop 1 := by
  unfold pyStartswith at h
  have hd : ("/" : String).data = ['/'] := rfl
  rw [hd] at h
  cases hp : p.data with
  | nil => rw [hp] at h; simp [List.isPrefixOf] at h
  | cons x xs =>
    rw [hp] at h
    simp only [List.isPrefixOf, Bool.and_eq_true, beq_iff_eq] at h
    rw [h.1]
    rfl

theorem cleanAbs_data (p : String) (h : cleanAbs p = true) :
    p.data = '/' :: p.data.drop 1 ∧ (splitOnChar '/' (p.data.drop 1)).all goodName = true := by
  unfold cleanAbs at h
  rw [Bool.and_eq_true] at h
  exact ⟨startswith_slash_data p h.1, h.2⟩

theorem all_good_ne_nil (t : List Char)
    (h : (splitOnChar '/' t).all goodName = true) : t ≠ [] := by
  intro ht
  rw [ht] at h
  simp [splitOnChar, goodName] at h

theorem all_good_head_ne_sep (t : List Char)
    (h : (splitOnChar '/' t).all goodName = true) : t.head? ≠ some '/' := by
  intro hh
  cases t with
  | nil => simp at hh
  | cons x xs =>
    simp only [List.head?_cons, Option.some.injEq] at hh
    rw [hh, splitOnChar_cons_sep] at h
    simp [goodName] at h

theorem splitOnChar_cons_ne (c x : Char) (l : List Char) (hx : x ≠ c) {t : List Char}
    {ts : List (List Char)} (h : splitOnChar c l = t :: ts) :
    splitOnChar c (x :: l) = (x :: t) :: ts := by
  simp only [splitOnChar, if_neg hx, h]

theorem mem_of_getLast?_eq {α : Type} (l : List α) (a : α) (h : l.getLast? = some a) :
    a ∈ l := by
  induction l with
  | nil => simp at h
  | cons x xs ih =>
    cases xs with
    | nil => simp at h; simp [h]
    | cons y ys =>
      rw [List.getLast?_cons_cons] at h
      exact List.mem_cons_of_mem x (ih h)

theorem getLast_split_of_last_sep (c : Char) (t : List Char) (h : t.getLast? = some c) :
    (splitOnChar c t).getLast? = some [] := by
  induction t with
  | nil => simp at h
  | cons x xs ih =>
    cases xs with
    | nil =>
      simp only [List.getLast?_singleton, Option.some.injEq] at h
      rw [h, splitOnChar_cons_sep]
      rfl
    | cons y ys =>
      have h2 : (y :: ys).getLast? = some c := by
        rw [List.getLast?_cons_cons] at h
        exact h
      have ihh := ih h2
      by_cases hx : x = c
      · rw [hx, splitOnChar_cons_sep]
        cases hs : splitOnChar c (y :: ys) with
        | nil => exact absurd hs (splitOnChar_ne_nil c (y :: ys))
        | cons t0 ts0 =>
          rw [hs] at ihh
          rw [List.getLast?_cons_cons]
          exact ihh
      · cases hs : splitOnChar c (y :: ys) with
        | nil => exact absurd hs (splitOnChar_ne_nil c (y :: ys))
        | cons t0 ts0 =>
          rw [splitOnChar_cons_ne c x (y :: ys) hx hs]
          rw [hs] at ihh
          cases ts0 with
          | nil =>
            simp only [List.getLast?_singleton, Option.some.injEq] at ihh
            have hj : y :: ys = joinComps c [t0] := (joinComps_splitOnChar c (y :: ys)).symm.trans
              (by rw [hs])
            rw [ihh] at hj
            simp [joinComps] at hj
          | cons t1 ts1 =>
            rw [List.getLast?_cons_cons]
            rw [List.getLast?_cons_cons] at ihh
            exact ihh

theorem all_good_last_ne_sep (t : List Char)
    (h : (splitOnChar '/' t).all goodName = true) : t.getLast? ≠ some '/' := by
  intro hl
  have hsplit := getLast_split_of_last_sep '/' t hl
  have hmem : ([] : List Char) ∈ splitOnChar '/' t :=
    mem_of_getLast?_eq _ _ hsplit
  have := List.all_eq_true.mp h [] hmem
  simp [goodName] at this

theorem goodName_elim (t : List Char) (h : goodName t = true) :
    t ≠ [] ∧ t ≠ ['.'] ∧ t ≠ ['.', '.'] := by
  unfold goodName at h
  exact of_decide_eq_true h

theorem normAux_skip_nil (s : Nat) (acc l : List (List Char)) :
    normAux s acc ([] :: l) = normAux s acc l := by
  simp [normAux]

theorem normAux_all_good (s : Nat) (l : List (List Char)) :
    ∀ acc, l.all goodName = true → normAux s acc l = acc.reverse ++ l := by
  induction l with
  | nil => intro acc _; simp [normAux]
  | cons t ts ih =>
    intro acc h
    rw [List.all_cons, Bool.and_eq_true] at h
    obtain ⟨g1, g2, g3⟩ := goodName_elim t h.1
    have h1 : ¬(t = [] ∨ t = ['.']) := by
      rintro (h2 | h2)
      · exact g1 h2
      · exact g2 h2
    have hstep : normAux s acc (t :: ts) = normAux s (t :: acc) ts := by
      simp only [normAux, if_neg h1, if_pos (Or.inl g3)]
    rw [hstep, ih (t :: acc) h.2]
    simp

theorem pyStartswith_slash_of_data (p : String) (l : List Char) (h : p.data = '/' :: l) :
    pyStartswith p "/" = true := by
  unfold pyStartswith
  have hdq : ("/" : String).data = ['/'] := rfl
  rw [hdq, h]
  simp [List.isPrefixOf]

theorem pyNormpath_cleanAbs (p : String) (h : cleanAbs p = true) : pyNormpath p = p := by
  obtain ⟨hdata, hgood⟩ := cleanAbs_data p h
  generalize hT : p.data.drop 1 = T at hdata hgood
  have htne : T ≠ [] := all_good_ne_nil T hgood
  have hthead : T.head? ≠ some '/' := all_good_head_ne_sep T hgood
  have hne : ¬(p.data = []) := by rw [hdata]; simp
  have hs1 : pyStartswith p "/" = true := pyStartswith_slash_of_data p T hdata
  have hs2 : pyStartswith p "//" = false := by
    unfold pyStartswith
    have hdq : ("//" : String).data = ['/', '/'] := rfl
    rw [hdq, hdata]
    cases T with
    | nil => exact absurd rfl htne
    | cons u us =>
      have hu : u ≠ '/' := by
        intro hu
        exact hthead (by simp [hu])
      simp [List.isPrefixOf, Ne.symm hu]
  unfold pyNormpath
  rw [if_neg hne]
  simp only [hs1, hs2]
  rw [hdata, splitOnChar_cons_sep, normAux_skip_nil]
  have hcond : ¬(false = true ∧ pyStartswith p "///" = false) := by
    rintro ⟨hc, -⟩
    exact absurd hc (by simp)
  rw [if_neg hcond, if_pos trivial]
  rw [normAux_all_good 1 (splitOnChar '/' T) [] hgood]
  rw [List.reverse_nil, List.nil_append, joinComps_splitOnChar]
  have hres : List.replicate 1 '/' ++ T = '/' :: T := by simp
  rw [hres, if_neg (by simp : ¬('/' :: T = []))]
  rw [← hdata]

theorem cleanAbs_append (b s : String) (hb : cleanAbs b = true) (hs : cleanRel s = true) :
    cleanAbs (b ++ "/" ++ s) = true := by
  obtain ⟨hdata, hgood⟩ := cleanAbs_data b hb
  generalize hT : b.data.drop 1 = T at hdata hgood
  have hd : (b ++ "/" ++ s).data = '/' :: (T ++ '/' :: s.data) := by
    rw [data_concat_sep, hdata, List.cons_append]
  unfold cleanAbs
  rw [Bool.and_eq_true]
  constructor
  · exact pyStartswith_slash_of_data _ _ hd
  · rw [hd]
    show (splitOnChar '/' (T ++ '/' :: s.data)).all goodName = true
    rw [splitOnChar_append, List.all_append, Bool.and_eq_true]
    exact ⟨hgood, hs⟩

theorem pyAbspath_concat (cwd b s : String) (hb : cleanAbs b = true) (hs : cleanRel s = true) :
    pyAbspath cwd (b ++ "/" ++ s) = b ++ "/" ++ s := by
  obtain ⟨hdata, -⟩ := cleanAbs_data b hb
  have hstart : pyStartswith (b ++ "/" ++ s) "/" = true :=
    pyStartswith_slash_of_data _ _ (by rw [data_concat_sep, hdata, List.cons_append])
  unfold pyAbspath
  rw [if_pos hstart]
  exact pyNormpath_cleanAbs _ (cleanAbs_append b s hb hs)

theorem pyAbspath_cleanAbs (cwd b : String) (hb : cleanAbs b = true) :
    pyAbspath cwd b = b := by
  obtain ⟨hdata, -⟩ := cleanAbs_data b hb
  unfold pyAbspath
  rw [if_pos (pyStartswith_slash_of_data b _ hdata)]
  exact pyNormpath_cleanAbs b hb

theorem pyJoin_clean (a s : String) (ha : cleanAbs a = true) (hs : cleanRel s = true) :
    pyJoin a s = a ++ "/" ++ s := by
  obtain ⟨hdata, hgood⟩ := cleanAbs_data a ha
  have h1 : pyStartswith s "/" = false := by
    unfold pyStartswith
    have hdq : ("/" : String).data = ['/'] := rfl
    rw [hdq]
    cases hsd : s.data with
    | nil => simp [List.isPrefixOf]
    | cons x xs =>
      have hx : x ≠ '/' := by
        intro hx
        have hh := all_good_head_ne_sep s.data hs
        rw [hsd] at hh
        exact hh (by simp [hx])
      simp [List.isPrefixOf, Ne.symm hx]
  have h2 : ¬(a = "" ∨ pyEndswithSlash a = true) := by
    rintro (h | h)
    · rw [h] at hdata
      simp at hdata
    · unfold pyEndswithSlash at h
      rw [hdata] at h
      have htne : a.data.drop 1 ≠ [] := all_good_ne_nil _ hgood
      have hlast := all_good_last_ne_sep _ hgood
      cases hdrop : a.data.drop 1 with
      | nil => exact htne hdrop
      | cons u us =>
        rw [hdrop] at h hlast
        rw [List.getLast?_cons_cons] at h
        exact hlast (of_decide_eq_true h)
  unfold pyJoin
  rw [h1]
  rw [if_neg (by simp), if_neg h2]

theorem filter_all_good (l : List (List Char)) (h : l.all goodName = true) :
    l.filter (fun u => u ≠ []) = l := by
  apply List.filter_eq_self.mpr
  intro u hu
  exact decide_eq_true (goodName_ne_nil u (List.all_eq_true.mp h u hu))

theorem relFromComps_append (A B : List (List Char)) (hB : B ≠ []) :
    relFromComps A (A ++ B) = String.mk (joinComps '/' B) := by
  unfold relFromComps
  rw [commonPrefixComps_self_append, Nat.sub_self, List.replicate_zero, List.drop_left,
    List.nil_append]
  cases B with
  | nil => exact absurd rfl hB
  | cons r rs => rfl

theorem pyRelpath_concat (cwd b s : String) (hb : cleanAbs b = true) (hs : cleanRel s = true) :
    pyRelpath cwd (b ++ "/" ++ s) b = s := by
  have habs1 : pyAbspath cwd (b ++ "/" ++ s) = b ++ "/" ++ s := pyAbspath_concat cwd b s hb hs
  have habs2 : pyAbspath cwd b = b := pyAbspath_cleanAbs cwd b hb
  obtain ⟨hdata, hgood⟩ := cleanAbs_data b hb
  generalize hT : b.data.drop 1 = T at hdata hgood
  unfold pyRelpath
  rw [habs1, habs2]
  have hsplit1 : splitOnChar '/' (b ++ "/" ++ s).data =
      [] :: (splitOnChar '/' T ++ splitOnChar '/' s.data) := by
    rw [data_concat_sep, hdata, List.cons_append, splitOnChar_cons_sep, splitOnChar_append]
  have hsplit2 : splitOnChar '/' b.data = [] :: splitOnChar '/' T := by
    rw [hdata, splitOnChar_cons_sep]
  rw [hsplit1, hsplit2]
  rw [List.filter_cons_of_neg (by simp), List.filter_cons_of_neg (by simp)]
  rw [List.filter_append, filter_all_good _ hgood, filter_all_good _ hs]
  rw [relFromComps_append _ _ (splitOnChar_ne_nil '/' s.data)]
  rw [joinComps_splitOnChar]

/-! First-match characterisation of the two conversion loops. -/

theorem convertHostGo_first_match (cwd hp : String) (pre post : List (String × String))
    (hm cm : String)
    (hpre : ∀ e ∈ pre, pyStartswith hp (pyAbspath cwd e.1) = false)
    (hmatch : pyStartswith hp (pyAbspath cwd hm) = true) :
    convertHostGo cwd hp (pre ++ (hm, cm) :: post) =
      Except.ok (pyJoin cm (pyRelpath cwd hp (pyAbspath cwd hm))) := by
  induction pre with
  | nil => simp [convertHostGo, hmatch]
  | cons e es ih =>
    obtain ⟨e1, e2⟩ := e
    have h1 : pyStartswith hp (pyAbspath cwd e1) = false := hpre (e1, e2) (by simp)
    rw [List.cons_append]
    show (if pyStartswith hp (pyAbspath cwd e1) = true then _ else
      convertHostGo cwd hp (es ++ (hm, cm) :: post)) = _
    rw [h1, if_neg (by simp)]
    exact ih (fun u hu => hpre u (List.mem_cons_of_mem _ hu))

theorem convertContainerGo_first_match (cwd cp : String) (pre post : List (String × String))
    (hm cm : String)
    (hpre : ∀ e ∈ pre, pyStartswith cp e.2 = false)
    (hmatch : pyStartswith cp cm = true) :
    convertContainerGo cwd cp (pre ++ (hm, cm) :: post) =
      Except.ok (pyJoin hm (pyRelpath cwd cp cm)) := by
  induction pre with
  | nil => simp [convertContainerGo, hmatch]
  | cons e es ih =>
    obtain ⟨e1, e2⟩ := e
    have h1 : pyStartswith cp e2 = false := hpre (e1, e2) (by simp)
    rw [List.cons_append]
    show (if pyStartswith cp e2 = true then _ else
      convertContainerGo cwd cp (es ++ (hm, cm) :: post)) = _
    rw [h1, if_neg (by simp)]
    exact ih (fun u hu => hpre u (List.mem_cons_of_mem _ hu))

/-- C1: `convert_host_to_container_path` resolves the host path with
`os.path.abspath` and returns, for the first mount-table entry in insertion
order whose resolved host mount path is a plain string prefix of the
resolved host path, the entry's container path joined with
`os.path.relpath` of the host path from that mount path.  The match is not
directory-boundary aware and not longest-prefix. -/
theorem convert_host_first_string_prefix_match (cwd h hm cm : String)
    (pre post : List (String × String))
    (hpre : ∀ e ∈ pre, pyStartswith (pyAbspath cwd h) (pyAbspath cwd e.1) = false)
    (hmatch : pyStartswith (pyAbspath cwd h) (pyAbspath cwd hm) = true) :
    convert_host_to_container_path cwd (pre ++ (hm, cm) :: post) h =
      Except.ok (pyJoin cm (pyRelpath cwd (pyAbspath cwd h) (pyAbspath cwd hm))) :=
  convertHostGo_first_match cwd (pyAbspath cwd h) pre post hm cm hpre hmatch

/-- Witness for C1: with mounts `{/a -> /c1, /a/b -> /c2}` (in that order),
the host path `/a/b/file` is converted through the first matching entry
`/a`, yielding `/c1/b/file`. -/
theorem convert_host_first_string_prefix_match_witness :
    convert_host_to_container_path "/" [("/a", "/c1"), ("/a/b", "/c2")] "/a/b/file" =
      Except.ok "/c1/b/file" := by
  have h := convert_host_first_string_prefix_match "/" "/a/b/file" "/a" "/c1" []
    [("/a/b", "/c2")] (by intro e he; simp at he) (by decide)
  exact h

/-- Counterexample for C1 as stated by the specification: the prefix match
is a plain string match in insertion order, so `/mnt/foobar` IS matched by a
mount of `/mnt/foo` (instead of falling through to a not-mounted error), and
with mounts `{/a -> /c1, /a/b -> /c2}` the host path `/a/b/file` resolves
through `/a` to `/c1/b/file`, not through the longer prefix `/a/b` to
`/c2/file`. -/
theorem convert_host_longest_prefix_counterexample :
    convert_host_to_container_path "/" [("/mnt/foo", "/c")] "/mnt/foobar" =
      Except.ok "/c/../foobar" ∧
    convert_host_to_container_path "/" [("/a", "/c1"), ("/a/b", "/c2")] "/a/b/file" =
      Except.ok "/c1/b/file" ∧
    ("/c1/b/file" : String) ≠ "/c2/file" :=
  ⟨rfl, rfl, by decide⟩

/-- C2 (amended): the host-to-container / container-to-host round trip
returns the resolved host path when the resolved host path lies strictly
below the host path of a mount entry whose host and container paths are
normalised absolute paths, and that entry is the first string-prefix match
on the host side and the first string-prefix match on the container side. -/
theorem convert_round_trip (cwd h hm cm s : String) (pre post : List (String × String))
    (hhm : cleanAbs hm = true) (hcm : cleanAbs cm = true) (hs : cleanRel s = true)
    (hres : pyAbspath cwd h = hm ++ "/" ++ s)
    (hpreH : ∀ e ∈ pre, pyStartswith (hm ++ "/" ++ s) (pyAbspath cwd e.1) = false)
    (hpreC : ∀ e ∈ pre, pyStartswith (cm ++ "/" ++ s) e.2 = false) :
    convert_host_to_container_path cwd (pre ++ (hm, cm) :: post) h =
      Except.ok (cm ++ "/" ++ s) ∧
    convert_container_to_host_path cwd (pre ++ (hm, cm) :: post) (cm ++ "/" ++ s) =
      Except.ok (pyAbspath cwd h) := by
  have habs_hm : pyAbspath cwd hm = hm := pyAbspath_cleanAbs cwd hm hhm
  constructor
  · unfold convert_host_to_container_path
    rw [hres]
    rw [convertHostGo_first_match cwd (hm ++ "/" ++ s) pre post hm cm hpreH
      (by rw [habs_hm]; exact pyStartswith_concat_sep hm s)]
    rw [habs_hm, pyRelpath_concat cwd hm s hhm hs, pyJoin_clean cm s hcm hs]
  · unfold convert_container_to_host_path
    rw [convertContainerGo_first_match cwd (cm ++ "/" ++ s) pre post hm cm hpreC
      (pyStartswith_concat_sep cm s)]
    rw [pyRelpath_concat cwd cm s hcm hs, pyJoin_clean hm s hhm hs, hres]

/-- Witness for C2: with mounts `{/b -> /d, /a -> /c}` the host path `/a/f`
is matched only by `/a`, converts to `/c/f`, and converts back to `/a/f`. -/
theorem convert_round_trip_witness :
    convert_host_to_container_path "/" [("/b", "/d"), ("/a", "/c")] "/a/f" =
      Except.ok "/c/f" ∧
    convert_container_to_host_path "/" [("/b", "/d"), ("/a", "/c")] "/c/f" =
      Except.ok "/a/f" := by
  have h := convert_round_trip "/" "/a/f" "/a" "/c" "f" [("/b", "/d")] []
    (by decide) (by decide) (by decide) (by decide)
    (by intro e he; simp at he; rw [he]; decide)
    (by intro e he; simp at he; rw [he]; decide)
  exact h

/-- Counterexample for C2 as stated by the specification: the round trip is
not the identity on resolved host paths matched by exactly one entry.  With
the single mount `{/a -> /c1}` the host path `/a` (equal to its mount
point) converts to `/c1/.` and back to `/a/.`, not `/a`; and with mounts
`{/b -> /c, /a -> /c/x}` the host path `/a/f` is matched by exactly the one
host entry `/a`, converts to `/c/x/f`, but converts back through the other
entry's container path `/c` to `/b/x/f`. -/
theorem convert_round_trip_counterexample :
    convert_host_to_container_path "/" [("/a", "/c1")] "/a" = Except.ok "/c1/." ∧
    convert_container_to_host_path "/" [("/a", "/c1")] "/c1/." = Except.ok "/a/." ∧
    ("/a/." : String) ≠ "/a" ∧
    convert_host_to_container_path "/" [("/b", "/c"), ("/a", "/c/x")] "/a/f" =
      Except.ok "/c/x/f" ∧
    convert_container_to_host_path "/" [("/b", "/c"), ("/a", "/c/x")] "/c/x/f" =
      Except.ok "/b/x/f" ∧
    ("/b/x/f" : String) ≠ "/a/f" :=
  ⟨rfl, rfl, by decide, rfl, rfl, by decide⟩

/-- C8 (amended): the local resolution used by
`convert_host_to_container_path` is `os.path.abspath`, which does not expand
a leading home-directory marker: `~` is kept as a literal path component and
resolved against the current working directory, so `~/x` resolves to
`cwd/~/x`, while the corresponding path under the home directory resolves to
`homeDir/x`. -/
theorem abspath_keeps_home_marker (cwd x : String)
    (hcwd : cleanAbs cwd = true) (hx : cleanRel x = true) :
    pyAbspath cwd ("~/" ++ x) = cwd ++ "/" ++ ("~/" ++ x) ∧
    ∀ homeDir, cleanAbs homeDir = true →
      pyAbspath cwd (pyJoin homeDir x) = homeDir ++ "/" ++ x := by
  have hrel : cleanRel ("~/" ++ x) = true := by
    unfold cleanRel
    have hd : ("~/" ++ x).data = '~' :: '/' :: x.data := by
      rw [strData_append]
      rfl
    rw [hd]
    rw [splitOnChar_cons_ne '/' '~' ('/' :: x.data) (by decide) (splitOnChar_cons_sep '/' x.data)]
    rw [List.all_cons, Bool.and_eq_true]
    exact ⟨by decide, hx⟩
  constructor
  · have hnotabs : pyStartswith ("~/" ++ x) "/" = false := by
      unfold pyStartswith
      have hdq : ("/" : String).data = ['/'] := rfl
      have hd : ("~/" ++ x).data = '~' :: '/' :: x.data := by
        rw [strData_append]
        rfl
      rw [hdq, hd]
      simp [List.isPrefixOf]
    unfold pyAbspath
    rw [hnotabs, if_neg (by simp)]
    rw [pyJoin_clean cwd ("~/" ++ x) hcwd hrel]
    exact pyNormpath_cleanAbs _ (cleanAbs_append cwd ("~/" ++ x) hcwd hrel)
  · intro homeDir hhome
    rw [pyJoin_clean homeDir x hhome hx]
    exact pyAbspath_concat cwd homeDir x hhome hx

/-- Witness for C8: resolving `~/f` against working directory `/w` keeps the
marker literally (`/w/~/f`), while the path joined under home directory
`/home/u` resolves to `/home/u/f`. -/
theorem abspath_keeps_home_marker_witness :
    pyAbspath "/w" "~/f" = "/w/~/f" ∧
    pyAbspath "/w" (pyJoin "/home/u" "f") = "/home/u/f" := by
  have h := abspath_keeps_home_marker "/w" "f" (by decide) (by decide)
  exact ⟨h.1, h.2 "/home/u" (by decide)⟩

/-- Counterexample for C8 as stated by the specification: with the home
directory `/home/u` mounted at `/c` and the working directory `/home/u`,
`convert_host_to_container_path` sends `~/x` to `/c/~/x`, while the
corresponding absolute path under the home directory is sent to `/c/x` —
the leading home marker is not expanded. -/
theorem home_marker_not_expanded_counterexample :
    convert_host_to_container_path "/home/u" [("/home/u", "/c")] "~/x" =
      Except.ok "/c/~/x" ∧
    convert_host_to_container_path "/home/u" [("/home/u", "/c")] (pyJoin "/home/u" "x") =
      Except.ok "/c/x" ∧
    ("/c/~/x" : String) ≠ "/c/x" :=
  ⟨rfl, rfl, by decide⟩

/-- C4 (amended): `create_docker_container` generates the container name
from the configured timestamp format, and invokes the runtime's run
capability with the base image repository, the session's mount table, and a
fixed execution identity — namely the root user (`WcEnvUser.root`, id 0) —
and stores the new container as the session's current container. -/
theorem create_docker_container_spec (strftime : String → String)
    (containers_run : RunArgs → String) (st : SessionState) (tty : Bool) :
    (create_docker_container strftime containers_run st tty).2.1.name =
      make_docker_container_name strftime st ∧
    (create_docker_container strftime containers_run st tty).2.1.image =
      st.base_docker_image_repo ∧
    (create_docker_container strftime containers_run st tty).2.1.volumes =
      st.paths_to_mount_to_docker_container ∧
    (create_docker_container strftime containers_run st tty).2.1.user = WcEnvUser.root.name ∧
    WcEnvUser.root.value = 0 ∧
    (create_docker_container strftime containers_run st tty).1.docker_container =
      some ((create_docker_container strftime containers_run st tty).2.2) :=
  ⟨rfl, rfl, rfl, rfl, rfl, rfl⟩

/-- Counterexample for C4 as stated by the specification: the execution
identity passed to the run capability is `root` (id 0), not a non-root
identity — the source passes `user=WcEnvUser.root.name`. -/
theorem create_docker_container_root_counterexample :
    (create_docker_container (fun fmt => fmt) (fun _ => "cont")
      { base_docker_image_repo := "karrlab/wc_env",
        paths_to_mount_to_docker_container := [],
        docker_container_name_format := "wc_env-2018",
        docker_container := none } true).2.1.user = "root" ∧
    WcEnvUser.root.value = 0 ∧
    ("root" : String) ≠ WcEnvUser.container_user.name :=
  ⟨rfl, rfl, by decide⟩

/-- C5: the SSH probe never raises (it always returns a Boolean, for any
exit code), and it returns `true` exactly when the probe command exits with
code 1 and its (trimmed) output contains `successfully authenticated`. -/
theorem ssh_probe_inverted_success (output : String) (exit_code : Int) :
    (∃ b, test_github_ssh_access_in_docker_container output exit_code = Except.ok b) ∧
    (test_github_ssh_access_in_docker_container output exit_code = Except.ok true ↔
      (exit_code = 1 ∧
        containsSubstr (strDropLast output) "successfully authenticated" = true)) := by
  unfold test_github_ssh_access_in_docker_container run_process_in_docker_container
  rw [if_neg (by simp)]
  constructor
  · exact ⟨_, rfl⟩
  · constructor
    · intro h
      rw [Except.ok.injEq, Bool.and_eq_true, decide_eq_true_iff] at h
      exact h
    · rintro ⟨h1, h2⟩
      rw [Except.ok.injEq, Bool.and_eq_true, decide_eq_true_iff]
      exact ⟨h1, h2⟩

/-- C10: `remove_docker_image` issues one removal per tag with `force=True`,
and its behaviour does not depend on the caller's `force` argument. -/
theorem remove_docker_image_force_ignored (image_repo : String) (image_tags : List String)
    (f1 f2 : Bool) :
    remove_docker_image image_repo image_tags f1 = remove_docker_image image_repo image_tags f2 ∧
    (∀ call ∈ remove_docker_image image_repo image_tags f1, call.2 = true) ∧
    (remove_docker_image image_repo image_tags f1).length = image_tags.length := by
  refine ⟨rfl, ?_, by simp [remove_docker_image]⟩
  intro call hc
  unfold remove_docker_image at hc
  obtain ⟨tag, -, rfl⟩ := List.mem_map.mp hc
  rfl

/-- Witness for C10: removing tags `a` and `b` with `force=False` issues
the same forced calls as with `force=True`. -/
theorem remove_docker_image_force_ignored_witness :
    remove_docker_image "repo" ["a", "b"] false = remove_docker_image "repo" ["a", "b"] true ∧
    (("repo:a", true)) ∈ remove_docker_image "repo" ["a", "b"] false ∧
    (("repo:a", true) : String × Bool).2 = true := by
  have h := remove_docker_image_force_ignored "repo" ["a", "b"] false true
  exact ⟨h.1, by decide, h.2.1 ("repo:a", true) (by decide)⟩

theorem sortDescBy_eq_nil_iff (key : DockerContainer → Nat) (l : List DockerContainer) :
    sortDescBy key l = [] ↔ l = [] := by
  cases l with
  | nil => simp [sortDescBy]
  | cons x xs =>
    simp only [sortDescBy]
    constructor
    · intro h
      cases hs : sortDescBy key xs with
      | nil => rw [hs] at h; simp [insertDescBy] at h
      | cons y ys =>
        rw [hs] at h
        unfold insertDescBy at h
        by_cases hk : key y > key x
        · rw [if_pos hk] at h; simp at h
        · rw [if_neg hk] at h; simp at h
    · intro h
      simp at h

theorem mem_insertDescBy (key : DockerContainer → Nat) (x a : DockerContainer)
    (l : List DockerContainer) : a ∈ insertDescBy key x l ↔ a = x ∨ a ∈ l := by
  induction l with
  | nil => simp [insertDescBy]
  | cons y ys ih =>
    unfold insertDescBy
    by_cases hk : key y > key x
    · rw [if_pos hk]
      simp only [List.mem_cons, ih]
      tauto
    · rw [if_neg hk]
      simp only [List.mem_cons]

theorem mem_sortDescBy (key : DockerContainer → Nat) (a : DockerContainer)
    (l : List DockerContainer) : a ∈ sortDescBy key l ↔ a ∈ l := by
  induction l with
  | nil => simp [sortDescBy]
  | cons x xs ih =>
    simp only [sortDescBy, mem_insertDescBy, ih, List.mem_cons]

theorem sortDescBy_head_max (key : DockerContainer → Nat) (l : List DockerContainer) :
    ∀ c rest, sortDescBy key l = c :: rest → ∀ d ∈ l, key d ≤ key c := by
  induction l with
  | nil => intro c rest h; simp [sortDescBy] at h
  | cons x xs ih =>
    intro c rest h d hd
    rw [show sortDescBy key (x :: xs) = insertDescBy key x (sortDescBy key xs) from rfl] at h
    cases hs : sortDescBy key xs with
    | nil =>
      rw [hs] at h
      unfold insertDescBy at h
      have hxc : x = c := by
        injection h with h1 h2
      have hxs : xs = [] := (sortDescBy_eq_nil_iff key xs).mp hs
      rw [hxs] at hd
      have : d = x := by simpa using hd
      rw [this, hxc]
    | cons y ys =>
      rw [hs] at h
      unfold insertDescBy at h
      by_cases hk : key y > key x
      · rw [if_pos hk] at h
        have hyc : y = c := by injection h with h1 h2
        rcases List.mem_cons.mp hd with rfl | hd2
        · rw [← hyc]; exact Nat.le_of_lt hk
        · rw [← hyc]; exact ih y ys hs d hd2
      · rw [if_neg hk] at h
        have hxc : x = c := by injection h with h1 h2
        rcases List.mem_cons.mp hd with rfl | hd2
        · rw [hxc]
        · have h1 : key d ≤ key y := ih y ys hs d hd2
          have h2 : key y ≤ key x := Nat.le_of_not_lt hk
          rw [← hxc]
          exact Nat.le_trans h1 h2

/-- C6: `get_latest_docker_container` returns none exactly when no listed
container is managed (its name parses against the container name format),
and otherwise returns a managed container from the listing whose
stats-reported read time is maximal among the managed containers — the
ordering key is the runtime-reported read time, not the name. -/
theorem get_latest_docker_container_spec (is_managed : String → Bool)
    (listing : List DockerContainer) :
    (get_latest_docker_container is_managed listing = none ↔
      listing.filter (fun c => is_managed c.name) = []) ∧
    (∀ c, get_latest_docker_container is_managed listing = some c →
      is_managed c.name = true ∧ c ∈ listing ∧
      ∀ d ∈ listing, is_managed d.name = true → d.statsRead ≤ c.statsRead) := by
  constructor
  · unfold get_latest_docker_container get_docker_containers
    rw [if_pos rfl]
    cases hs : sortDescBy (fun c => c.statsRead) (listing.filter (fun c => is_managed c.name)) with
    | nil =>
      simp only
      rw [← sortDescBy_eq_nil_iff (fun c => c.statsRead)
        (listing.filter (fun c => is_managed c.name)), hs]
      simp
    | cons y ys =>
      simp only
      constructor
      · intro h; exact absurd h (by simp)
      · intro h
        rw [← sortDescBy_eq_nil_iff (fun c => c.statsRead)
          (listing.filter (fun c => is_managed c.name))] at h
        rw [hs] at h
        exact absurd h (by simp)
  · intro c h
    unfold get_latest_docker_container get_docker_containers at h
    rw [if_pos rfl] at h
    cases hs : sortDescBy (fun c => c.statsRead) (listing.filter (fun c => is_managed c.name)) with
    | nil => rw [hs] at h; simp at h
    | cons y ys =>
      rw [hs] at h
      have hyc : y = c := by simpa using h
      rw [hyc] at hs
      have hcmem : c ∈ listing.filter (fun c => is_managed c.name) := by
        rw [← mem_sortDescBy (fun c => c.statsRead), hs]
        simp
      have hcf := List.mem_filter.mp hcmem
      refine ⟨hcf.2, hcf.1, ?_⟩
      intro d hd hdm
      exact sortDescBy_head_max (fun c => c.statsRead) _ c ys hs d
        (List.mem_filter.mpr ⟨hd, hdm⟩)

/-- Witness for C6: over two managed containers with read times 1 and 2,
the one with the larger read time is returned, and it dominates every
managed container's read time. -/
theorem get_latest_docker_container_spec_witness :
    get_latest_docker_container (fun _ => true)
      [⟨"wc_env-a", 1⟩, ⟨"wc_env-b", 2⟩] = some ⟨"wc_env-b", 2⟩ ∧
    ∀ d ∈ [(⟨"wc_env-a", 1⟩ : DockerContainer), ⟨"wc_env-b", 2⟩],
      d.statsRead ≤ (⟨"wc_env-b", 2⟩ : DockerContainer).statsRead := by
  constructor
  · rfl
  · intro d hd
    exact ((get_latest_docker_container_spec (fun _ => true)
      [⟨"wc_env-a", 1⟩, ⟨"wc_env-b", 2⟩]).2 ⟨"wc_env-b", 2⟩ rfl).2.2 d hd rfl

/-- C3: when the idempotence probe reports the destination present and
`overwrite` is false, `copy_path_to_docker_container` fails with the
already-exists `WcEnvManagerError` and performs zero copy actions; when the
destination is absent or `overwrite` is true, it performs exactly the one
copy action. -/
theorem copy_path_overwrite_gate (env : SetupEnv) (local_path container_path : String)
    (overwrite : Bool) :
    (env.containerPathExists container_path = true ∧ overwrite = false →
      (copy_path_to_docker_container env local_path container_path overwrite).2 =
        Except.error ⟨"File " ++ container_path ++ " already exists"⟩ ∧
      ((copy_path_to_docker_container env local_path container_path overwrite).1.filter
        isCopyAction).length = 0) ∧
    (env.containerPathExists container_path = false ∨ overwrite = true →
      (copy_path_to_docker_container env local_path container_path overwrite).2 =
        Except.ok () ∧
      (copy_path_to_docker_container env local_path container_path overwrite).1.filter
        isCopyAction = [SetupEvent.dockerCp local_path container_path]) := by
  unfold copy_path_to_docker_container
  constructor
  · intro h
    rw [if_pos h]
    exact ⟨rfl, by simp [isCopyAction]⟩
  · intro h
    have hneg : ¬(env.containerPathExists container_path = true ∧ overwrite = false) := by
      rcases h with h | h
      · rintro ⟨h1, -⟩
        rw [h] at h1
        exact absurd h1 (by simp)
      · rintro ⟨-, h2⟩
        rw [h] at h2
        exact absurd h2 (by simp)
    rw [if_neg hneg]
    exact ⟨rfl, by simp [isCopyAction, List.filter]⟩

/-- Witness for C3: against a present destination with `overwrite=false`
the copy fails with the already-exists error and zero copy actions; against
an absent destination it performs the single copy action. -/
theorem copy_path_overwrite_gate_witness :
    (copy_path_to_docker_container envPathPresent "/h/f" "/c/f" false).2 =
      Except.error ⟨"File /c/f already exists"⟩ ∧
    ((copy_path_to_docker_container envPathPresent "/h/f" "/c/f" false).1.filter
      isCopyAction).length = 0 ∧
    (copy_path_to_docker_container envPathAbsent "/h/f" "/c/f" false).2 = Except.ok () ∧
    (copy_path_to_docker_container envPathAbsent "/h/f" "/c/f" false).1.filter isCopyAction =
      [SetupEvent.dockerCp "/h/f" "/c/f"] := by
  have h1 := (copy_path_overwrite_gate envPathPresent "/h/f" "/c/f" false).1 ⟨rfl, rfl⟩
  have h2 := (copy_path_overwrite_gate envPathAbsent "/h/f" "/c/f" false).2 (Or.inl rfl)
  exact ⟨h1.1, h1.2, h2.1, h2.2⟩

theorem thenDo_snd_ok (a : List SetupEvent × Except WcEnvManagerError Unit)
    (f : Unit → List SetupEvent × Except WcEnvManagerError Unit)
    (h : (thenDo a f).2 = Except.ok ()) :
    a.2 = Except.ok () ∧ (f ()).2 = Except.ok () := by
  obtain ⟨evs, r⟩ := a
  cases r with
  | error e => simp [thenDo] at h
  | ok u => exact ⟨rfl, by simpa [thenDo] using h⟩

theorem thenDo_fst_ok (a : List SetupEvent × Except WcEnvManagerError Unit)
    (f : Unit → List SetupEvent × Except WcEnvManagerError Unit)
    (h : a.2 = Except.ok ()) : (thenDo a f).1 = a.1 ++ (f ()).1 := by
  obtain ⟨evs, r⟩ := a
  cases r with
  | error e => simp at h
  | ok u => simp [thenDo]

theorem filter_install_thenDo (a : List SetupEvent × Except WcEnvManagerError Unit)
    (f : Unit → List SetupEvent × Except WcEnvManagerError Unit)
    (ha : a.1.filter isInstallStep = [])
    (hf : (f ()).1.filter isInstallStep = []) :
    (thenDo a f).1.filter isInstallStep = [] := by
  obtain ⟨evs, r⟩ := a
  cases r with
  | error e => simpa [thenDo] using ha
  | ok u => simp only [thenDo, List.filter_append]; rw [ha, hf]; rfl

theorem filter_install_copy_path (env : SetupEnv) (lp cp : String) (ov : Bool) :
    (copy_path_to_docker_container env lp cp ov).1.filter isInstallStep = [] := by
  unfold copy_path_to_docker_container
  by_cases h : env.containerPathExists cp = true ∧ ov = false
  · rw [if_pos h]; simp [isInstallStep]
  · rw [if_neg h]; simp [isInstallStep]

theorem filter_install_copyThirdPartyLoop (env : SetupEnv) (home hcd : String) (ov : Bool)
    (l : List (String × String)) :
    (copyThirdPartyLoop env home hcd ov l).1.filter isInstallStep = [] := by
  induction l with
  | nil => simp [copyThirdPartyLoop]
  | cons e rest ih =>
    obtain ⟨rel_src, abs_dest⟩ := e
    unfold copyThirdPartyLoop
    apply filter_install_thenDo
    · simp [isInstallStep]
    · apply filter_install_thenDo
      · exact filter_install_copy_path env _ _ ov
      · exact ih

theorem filter_install_copy_config (env : SetupEnv) (ov : Bool) :
    (copy_config_files_to_docker_container env ov).1.filter isInstallStep = [] := by
  unfold copy_config_files_to_docker_container
  apply filter_install_thenDo
  · simp [isInstallStep]
  · by_cases h : env.hostConfigDirExists = true
    · rw [if_pos h]
      apply filter_install_thenDo
      · exact filter_install_copy_path env _ _ ov
      · exact filter_install_copyThirdPartyLoop env _ _ ov env.thirdPartyPaths
    · rw [if_neg h]
      rfl

theorem filter_install_copyPathsLoop (env : SetupEnv) (ov : Bool)
    (l : List (String × String)) :
    (copyPathsLoop env ov l).1.filter isInstallStep = [] := by
  induction l with
  | nil => simp [copyPathsLoop]
  | cons e rest ih =>
    obtain ⟨host, container⟩ := e
    unfold copyPathsLoop
    apply filter_install_thenDo
    · exact filter_install_copy_path env _ _ ov
    · exact ih

theorem filter_install_ssh_host (upgrade : Bool) :
    (install_github_ssh_host_in_docker_container upgrade).filter isInstallStep = [] := by
  cases upgrade <;> simp [install_github_ssh_host_in_docker_container, isInstallStep]

theorem filter_install_sshProbeStep (env : SetupEnv) :
    (sshProbeStep env).1.filter isInstallStep = [] := by
  unfold sshProbeStep
  apply filter_install_thenDo
  · simp [isInstallStep]
  · show (match test_github_ssh_access_in_docker_container env.sshOutput env.sshExit with
      | Except.error e => ([], Except.error e)
      | Except.ok true => ([], Except.ok ())
      | Except.ok false =>
          (([] : List SetupEvent), Except.error ⟨"AssertionError"⟩)).1.filter isInstallStep = []
    cases h : test_github_ssh_access_in_docker_container env.sshOutput env.sshExit with
    | error e => rfl
    | ok b => cases b <;> rfl

theorem install_trace_filter (env : SetupEnv) (pv pkgs : String) (u pdl : Bool) :
    (install_python_packages_in_docker_container env pv pkgs u pdl).1.filter isInstallStep =
      [SetupEvent.pipInstall pv pkgs u pdl] := by
  unfold install_python_packages_in_docker_container
  have hcopy : copy_path_to_docker_container env env.hostTempName env.mktempOut true =
      ([SetupEvent.existsCheck env.mktempOut (env.containerPathExists env.mktempOut),
        SetupEvent.dockerCp env.hostTempName env.mktempOut], Except.ok ()) := by
    unfold copy_path_to_docker_container
    rw [if_neg (by rintro ⟨-, h⟩; exact absurd h (by simp))]
  rw [hcopy]
  by_cases hp : env.pipOk pkgs = true
  · rw [if_pos hp]
    simp [thenDo, isInstallStep, List.filter_append]
  · rw [if_neg hp]
    simp [thenDo, isInstallStep, List.filter_append]

/-- C7 (amended): whenever `setup_docker_container` completes successfully
it has issued exactly three package-install steps, one per configured
package set — PyPI (without dependency links), GitHub and host (each with
dependency links) — in that order, regardless of whether any of the
package lists is empty. -/
theorem setup_install_steps (cfg : WcEnvConfig) (env : SetupEnv) (upgrade : Bool)
    (tr : List SetupEvent)
    (h : setup_docker_container cfg env upgrade = (tr, Except.ok ())) :
    tr.filter isInstallStep =
      [SetupEvent.pipInstall cfg.python_version_in_container cfg.python_packages_from_pypi
        upgrade false,
       SetupEvent.pipInstall cfg.python_version_in_container cfg.python_packages_from_github
        upgrade true,
       SetupEvent.pipInstall cfg.python_version_in_container cfg.python_packages_from_host
        upgrade true] := by
  have hsnd : (setup_docker_container cfg env upgrade).2 = Except.ok () := by rw [h]
  have htr : (setup_docker_container cfg env upgrade).1 = tr := by rw [h]
  unfold setup_docker_container at hsnd htr
  obtain ⟨hA, hrest1⟩ := thenDo_snd_ok _ _ hsnd
  obtain ⟨hB, hrest2⟩ := thenDo_snd_ok _ _ hrest1
  obtain ⟨hC, hrest3⟩ := thenDo_snd_ok _ _ hrest2
  obtain ⟨hD, hrest4⟩ := thenDo_snd_ok _ _ hrest3
  obtain ⟨hE, hrest5⟩ := thenDo_snd_ok _ _ hrest4
  obtain ⟨hF, hG⟩ := thenDo_snd_ok _ _ hrest5
  rw [thenDo_fst_ok _ _ hA, thenDo_fst_ok _ _ hB, thenDo_fst_ok _ _ hC, thenDo_fst_ok _ _ hD,
    thenDo_fst_ok _ _ hE, thenDo_fst_ok _ _ hF] at htr
  rw [← htr]
  simp only [List.filter_append]
  rw [filter_install_copy_config env upgrade, filter_install_copyPathsLoop env upgrade,
    filter_install_ssh_host upgrade, filter_install_sshProbeStep env,
    install_trace_filter env _ _ upgrade false, install_trace_filter env _ _ upgrade true,
    install_trace_filter env _ _ upgrade true]
  rfl

/-- Witness for C7: in the scenario, setup succeeds and the filtered trace
contains exactly the three install steps, including an install step with an
empty package list for each of the two empty sets. -/
theorem setup_install_steps_witness :
    (setup_docker_container scenarioConfig scenarioEnv false).1.filter isInstallStep =
      [SetupEvent.pipInstall "3" "requests==2.0" false false,
       SetupEvent.pipInstall "3" "" false true,
       SetupEvent.pipInstall "3" "" false true] := by
  have h := setup_install_steps scenarioConfig scenarioEnv false
    (setup_docker_container scenarioConfig scenarioEnv false).1 rfl
  exact h

/-- Counterexample for C7 as stated by the specification: in the scenario
with one PyPI package list and two empty package lists, setup issues three
package-install steps — not one — because the install calls are made
unconditionally; in particular an install step is issued for the empty
GitHub set. -/
theorem setup_install_steps_counterexample :
    (setup_docker_container scenarioConfig scenarioEnv false).2 = Except.ok () ∧
    ((setup_docker_container scenarioConfig scenarioEnv false).1.filter isInstallStep).length
      = 3 ∧
    SetupEvent.pipInstall "3" "" false true ∈
      (setup_docker_container scenarioConfig scenarioEnv false).1.filter isInstallStep ∧
    (3 : Nat) ≠ 1 := by
  refine ⟨rfl, rfl, ?_, by decide⟩
  show SetupEvent.pipInstall "3" "" false true ∈
    ([SetupEvent.pipInstall "3" "requests==2.0" false false,
      SetupEvent.pipInstall "3" "" false true,
      SetupEvent.pipInstall "3" "" false true] : List SetupEvent)
  simp

theorem nthChar_append_left (l m : List Char) (n : Nat) (h : n < l.length) :
    nthChar (l ++ m) n = nthChar l n := by
  induction l generalizing n with
  | nil => simp at h
  | cons x xs ih =>
    cases n with
    | zero => rfl
    | succ k =>
      show nthChar (xs ++ m) k = nthChar xs k
      exact ih k (by simpa using h)

theorem string_ne_of_nthChar_ne (a b : String) (n : Nat)
    (h : nthChar a.data n ≠ nthChar b.data n) : a ≠ b := by
  intro hab
  rw [hab] at h
  exact h rfl

theorem conn_msg_char (m : String) :
    nthChar ("Docker connection error: service must be running:\n  " ++
      indentException m).data 7 = some 'c' := by
  rw [strData_append, nthChar_append_left _ _ 7 (by decide)]
  decide

theorem api_msg_char (m : String) :
    nthChar ("Docker API error: Dockerfile contains syntax errors:\n  " ++
      indentException m).data 7 = some 'A' := by
  rw [strData_append, nthChar_append_left _ _ 7 (by decide)]
  decide

theorem build_msg_char (m : String) :
    nthChar ("Docker build error: Error building Dockerfile:\n  " ++
      indentException m).data 7 = some 'b' := by
  rw [strData_append, nthChar_append_left _ _ 7 (by decide)]
  decide

/-- C9 (amended): the failure kinds are all raised as the single exception
class `WcEnvManagerError`; in particular the image-build operation maps the
connection-unreachable, build-spec (API), and build-execution failures to
values of that one class whose messages always differ (each begins with a
distinct prefix), so a caller can branch only on message text, never on a
distinct exception kind. -/
theorem build_errors_one_class_distinct_messages (p m1 m2 m3 : String) :
    raisedClass (build_base_docker_image true p (DockerBuildOutcome.connectionError m1)) =
      some "WcEnvManagerError" ∧
    raisedClass (build_base_docker_image true p (DockerBuildOutcome.apiError m2)) =
      some "WcEnvManagerError" ∧
    raisedClass (build_base_docker_image true p (DockerBuildOutcome.buildError m3)) =
      some "WcEnvManagerError" ∧
    raisedMessage (build_base_docker_image true p (DockerBuildOutcome.connectionError m1)) ≠
      raisedMessage (build_base_docker_image true p (DockerBuildOutcome.apiError m2)) ∧
    raisedMessage (build_base_docker_image true p (DockerBuildOutcome.apiError m2)) ≠
      raisedMessage (build_base_docker_image true p (DockerBuildOutcome.buildError m3)) ∧
    raisedMessage (build_base_docker_image true p (DockerBuildOutcome.connectionError m1)) ≠
      raisedMessage (build_base_docker_image true p (DockerBuildOutcome.buildError m3)) := by
  refine ⟨rfl, rfl, rfl, ?_, ?_, ?_⟩
  · show some ("Docker connection error: service must be running:\n  " ++ indentException m1) ≠
      some ("Docker API error: Dockerfile contains syntax errors:\n  " ++ indentException m2)
    intro hsome
    exact string_ne_of_nthChar_ne _ _ 7
      (by rw [conn_msg_char, api_msg_char]; decide) (Option.some.inj hsome)
  · show some ("Docker API error: Dockerfile contains syntax errors:\n  " ++ indentException m2) ≠
      some ("Docker build error: Error building Dockerfile:\n  " ++ indentException m3)
    intro hsome
    exact string_ne_of_nthChar_ne _ _ 7
      (by rw [api_msg_char, build_msg_char]; decide) (Option.some.inj hsome)
  · show some ("Docker connection error: service must be running:\n  " ++ indentException m1) ≠
      some ("Docker build error: Error building Dockerfile:\n  " ++ indentException m3)
    intro hsome
    exact string_ne_of_nthChar_ne _ _ 7
      (by rw [conn_msg_char, build_msg_char]; decide) (Option.some.inj hsome)

/-- Witness for C9: the three build failure kinds at concrete payloads are
all of class `WcEnvManagerError` with pairwise different messages. -/
theorem build_errors_one_class_distinct_messages_witness :
    raisedClass (build_base_docker_image true "/ctx" (DockerBuildOutcome.connectionError "a")) =
      some "WcEnvManagerError" ∧
    raisedMessage (build_base_docker_image true "/ctx" (DockerBuildOutcome.connectionError "a")) ≠
      raisedMessage (build_base_docker_image true "/ctx" (DockerBuildOutcome.apiError "b")) := by
  have h := build_errors_one_class_distinct_messages "/ctx" "a" "b" "c"
  exact ⟨h.1, h.2.2.2.1⟩

/-- Counterexample for C9 as stated by the specification: distinct failure
kinds — a not-mounted path-resolution failure, an already-exists collision,
and a build connection failure — are all raised as the one exception class
`WcEnvManagerError`, distinguishable only by message text, so the kinds are
collapsed into a single generic error class rather than reported as
distinct inspectable kinds. -/
theorem error_kinds_single_class_counterexample :
    convert_host_to_container_path "/" [] "/x" =
      Except.error ⟨"/x is not mounted into the container"⟩ ∧
    (copy_path_to_docker_container envPathPresent "/h/f" "/c/f" false).2 =
      Except.error ⟨"File /c/f already exists"⟩ ∧
    build_base_docker_image true "/ctx" (DockerBuildOutcome.connectionError "boom") =
      Except.error ⟨"Docker connection error: service must be running:\n  boom"⟩ ∧
    pythonExceptionClass ⟨"/x is not mounted into the container"⟩ =
      pythonExceptionClass ⟨"File /c/f already exists"⟩ ∧
    pythonExceptionClass ⟨"File /c/f already exists"⟩ =
      pythonExceptionClass ⟨"Docker connection error: service must be running:\n  boom"⟩ :=
  ⟨rfl, rfl, rfl, rfl, rfl⟩

end WcEnv
